import Mathlib

/-
  Verification development for the release-name parsing engine of the
  tv2go repository (Go package `naming`).

  The Go source is embedded shallowly:
  * machine integers (int, int64) become `Int`;
  * `time.Time` becomes the `GoTime` structure, whose zero value mirrors
    the zero `time.Time` (January 1 of year 1);
  * the external PCRE matcher is abstracted: a compiled regular expression
    is a function from an input string to an optional map of named
    captures (`none` when the pattern does not match, mirroring
    `m.Matches() == false`; for a match, querying a group name yields
    `none` when `NamedString` returns an error);
  * the external collaborators `brimtime.TranslateYMD` and
    `quality.QualityFromName` are passed as explicit function parameters
    (`ymd` and `qf`);
  * the reflection-based `combineResults`/`isEmptyValue` pair is embedded
    as an enumeration `MField` of the eight field names that `ParseFile`
    merges, together with `fieldIsEmpty` and `setFieldFrom`. The Go
    `isEmptyValue` (copied from encoding/json) has no case for
    `reflect.Struct`, so a `time.Time` value is never considered empty;
    `fieldIsEmpty` reproduces this by returning `false` for the air date.
  * Go `strings` and `path/filepath` helpers are implemented over
    `List Char` with the exact semantics the source relies on
    (single-pass non-overlapping replacement, one-suffix trimming,
    slash-based path splitting).
-/

set_option autoImplicit false

namespace Naming

/-- Model of `quality.Quality`, an opaque integer enum from the external
quality collaborator; 0 is the UNKNOWN sentinel. -/
abbrev Quality := Int

/-- Model of `time.Time` restricted to what the parser stores: the year,
month and day passed to `time.Date`. The zero value of `time.Time` is
January 1 of year 1. -/
structure GoTime where
  year : Int
  month : Int
  day : Int
deriving DecidableEq, Repr

/-- Zero value of `time.Time`. -/
def zeroGoTime : GoTime := ⟨1, 1, 1⟩

/-- Model of `ParseResult` with the same fields as the Go structure. -/
structure ParseResult where
  OriginalName : String
  SeriesName : String
  SeasonNumber : Int
  EpisodeNumbers : List Int
  ExtraInfo : String
  ReleaseGroup : String
  AirDate : GoTime
  AbsoluteEpisodeNumbers : List Int
  Score : Int
  Quality : Quality
  Version : String
  RegexUsed : String
deriving DecidableEq, Repr

/-- Zero value of a parse result -- every field at its Go zero value. -/
def emptyParseResult : ParseResult :=
  { OriginalName := ""
    SeriesName := ""
    SeasonNumber := 0
    EpisodeNumbers := []
    ExtraInfo := ""
    ReleaseGroup := ""
    AirDate := zeroGoTime
    AbsoluteEpisodeNumbers := []
    Score := 0
    Quality := 0
    Version := ""
    RegexUsed := "" }

/-- Named-capture access for one successful match: group name to optional
captured text (`none` models a `NamedString` error). -/
abbrev NamedGroups := String → Option String

/-- Model of `NameRegex`: a rule name together with the abstracted
compiled pattern. Applying the pattern to an input yields `none` when it
does not match, and the named-capture access function when it does. -/
structure NameRegex where
  Name : String
  Regex : String → Option NamedGroups

/-- Model of `NameParser`: the ordered rule catalog. -/
structure NameParser where
  Regexes : List NameRegex

/-- The closed capture vocabulary `knownMatches` from the source, in
source order. Note that the list does not contain the name `version`. -/
def knownMatches : List String :=
  ["series_name", "season_num", "ep_num", "ep_ab_num", "extra_ep_num",
   "extra_ab_ep_num", "extra_info", "release_group", "air_date", "series_num"]

/-- A captures map as built by `regexNamedMatch`: association list from
group name to the non-empty captured text. -/
abbrev Captures := List (String × String)

/-- Map lookup on a captures association list, mirroring Go map access
`matches[name]`. -/
def lookupMatch (ms : Captures) (key : String) : Option String :=
  (ms.find? (fun p => p.1 == key)).map (fun p => p.2)

/-- Embedding of `regexNamedMatch`: `none` when the pattern does not
match; otherwise the map holding, for each name in `knownMatches`, the
captured text when extraction succeeded and the text is non-empty. -/
def regexNamedMatch (re : String → Option NamedGroups) (str : String) :
    Option Captures :=
  match re str with
  | none => none
  | some named =>
      some (knownMatches.filterMap (fun n =>
        match named n with
        | some extract => if extract == "" then none else some (n, extract)
        | none => none))

/-- Embedding of `strconv.ParseInt(s, 10, 64)` as used by the parser: an
optional sign followed by at least one decimal digit, with the int64
range check; `none` models a non-nil error. -/
def parseInt64 (s : String) : Option Int :=
  let p : Bool × List Char :=
    match s.data with
    | List.cons c rest =>
        if c == Char.ofNat 45 then (true, rest)
        else if c == Char.ofNat 43 then (false, rest)
        else (false, s.data)
    | List.nil => (false, [])
  let digits := p.2
  if digits.isEmpty then none
  else if digits.all Char.isDigit then
    let n : Nat := digits.foldl (fun a c => a * 10 + (c.toNat - 48)) 0
    let v : Int := if p.1 then -(n : Int) else (n : Int)
    if -(2 ^ 63) ≤ v ∧ v ≤ 2 ^ 63 - 1 then some v else none
  else none

/-- Embedding of `strings.TrimLeft(m, "0")`. -/
def trimLeftZeros (s : String) : String :=
  ⟨s.data.dropWhile (fun c => c == Char.ofNat 48)⟩

/-- Trim every leading and trailing occurrence of one character,
mirroring `strings.Trim(name, cutset)` for a one-character cutset. -/
def trimChar (c : Char) (l : List Char) : List Char :=
  ((l.dropWhile (fun x => x == c)).reverse.dropWhile (fun x => x == c)).reverse

/-- Single-pass non-overlapping replacement of a double dash by one dash,
mirroring `strings.Replace(name, "--", "-", -1)`. -/
def collapseDoubleDash : List Char → List Char
  | List.cons c₁ (List.cons c₂ rest) =>
      if c₁ == Char.ofNat 45 ∧ c₂ == Char.ofNat 45 then
        Char.ofNat 45 :: collapseDoubleDash rest
      else c₁ :: collapseDoubleDash (c₂ :: rest)
  | l => l

/-- Embedding of `CleanSeriesName`: trim spaces, then periods; map each
of backslash, slash, star to a dash; delete each of colon, double quote,
angle brackets, pipe, question mark; collapse double dashes. -/
def CleanSeriesName (name : String) : String :=
  let l := trimChar (Char.ofNat 46) (trimChar (Char.ofNat 32) name.data)
  let l := l.map (fun c =>
    if c == Char.ofNat 92 ∨ c == Char.ofNat 47 ∨ c == Char.ofNat 42 then
      Char.ofNat 45
    else c)
  let l := l.filter (fun c =>
    ¬ (c == Char.ofNat 58 ∨ c == Char.ofNat 34 ∨ c == Char.ofNat 60 ∨
       c == Char.ofNat 62 ∨ c == Char.ofNat 124 ∨ c == Char.ofNat 63))
  ⟨collapseDoubleDash l⟩

/-- Loop body step for the `series_name` capture: set the cleaned series
name and award one point. -/
def applySeriesName (ms : Captures) (pr : ParseResult) : ParseResult :=
  match lookupMatch ms "series_name" with
  | some m => { pr with SeriesName := CleanSeriesName m, Score := pr.Score + 1 }
  | none => pr

/-- Loop body step for the `series_num` capture: award one point. -/
def applySeriesNum (ms : Captures) (pr : ParseResult) : ParseResult :=
  match lookupMatch ms "series_num" with
  | some _ => { pr with Score := pr.Score + 1 }
  | none => pr

/-- Loop body step for the `season_num` capture: strip leading zeros,
convert; a conversion error aborts the rule (`continue` in the source). -/
def stepSeason (ms : Captures) (pr : ParseResult) : Option ParseResult :=
  match lookupMatch ms "season_num" with
  | none => some pr
  | some m =>
      match parseInt64 (trimLeftZeros m) with
      | none => none
      | some sn => some { pr with SeasonNumber := sn, Score := pr.Score + 1 }

/-- Loop body step for the `ep_num` and `extra_ep_num` captures. A
conversion error on `ep_num` aborts the rule; a conversion error on
`extra_ep_num` is only logged, and the episode list is left untouched
(the source sets it solely in the two success branches). -/
def stepEp (ms : Captures) (pr : ParseResult) : Option ParseResult :=
  match lookupMatch ms "ep_num" with
  | none => some pr
  | some m =>
      match parseInt64 (trimLeftZeros m) with
      | none => none
      | some en =>
          match lookupMatch ms "extra_ep_num" with
          | some extraEp =>
              match parseInt64 extraEp with
              | none => some pr
              | some extraEpCvt =>
                  some { pr with EpisodeNumbers := [en, extraEpCvt] }
          | none => some { pr with EpisodeNumbers := [en] }

/-- Loop body step for the `ep_ab_num` capture: converted without any
leading-zero stripping; a conversion error aborts the rule. -/
def stepAbs (ms : Captures) (pr : ParseResult) : Option ParseResult :=
  match lookupMatch ms "ep_ab_num" with
  | none => some pr
  | some m =>
      match parseInt64 m with
      | none => none
      | some en => some { pr with AbsoluteEpisodeNumbers := [en] }

/-- Loop body step for the `air_date` capture: `ymd` abstracts
`brimtime.TranslateYMD`; year 0 or month 0 aborts the rule, otherwise
the date is stored and one point is awarded. -/
def stepAirDate (ymd : String → Int × Int × Int) (ms : Captures)
    (pr : ParseResult) : Option ParseResult :=
  match lookupMatch ms "air_date" with
  | none => some pr
  | some m =>
      if (ymd m).1 ≠ 0 ∧ (ymd m).2.1 ≠ 0 then
        some { pr with
                 AirDate := ⟨(ymd m).1, (ymd m).2.1, (ymd m).2.2⟩
                 Score := pr.Score + 1 }
      else none

/-- Loop body step for the `release_group` capture: store it and award
one point. -/
def applyReleaseGroup (ms : Captures) (pr : ParseResult) : ParseResult :=
  match lookupMatch ms "release_group" with
  | some m => { pr with ReleaseGroup := m, Score := pr.Score + 1 }
  | none => pr

/-- Loop body step for the `version` capture: store it, no point. Because
`knownMatches` does not contain the name `version`, `regexNamedMatch`
never places that key in the map and this step never fires. -/
def applyVersion (ms : Captures) (pr : ParseResult) : ParseResult :=
  match lookupMatch ms "version" with
  | some m => { pr with Version := m }
  | none => pr

/-- The fresh `ParseResult` literal built at the top of the rule loop:
original name, rule name, and the baseline score `0 - i`. -/
def seedResult (i : Nat) (r : NameRegex) (name : String) : ParseResult :=
  { emptyParseResult with
      OriginalName := name
      RegexUsed := r.Name
      Score := 0 - (i : Int) }

/-- One iteration of the rule loop of `parseString` for the rule at
catalog index `i`: `none` when the pattern does not match or a fatal
field conversion makes the source `continue`, otherwise the candidate
appended to `matchResults`. -/
def ruleCandidate (ymd : String → Int × Int × Int) (i : Nat) (r : NameRegex)
    (name : String) : Option ParseResult :=
  match regexNamedMatch r.Regex name with
  | none => none
  | some ms =>
      let pr := applySeriesNum ms (applySeriesName ms (seedResult i r name))
      (stepSeason ms pr).bind (fun pr =>
        (stepEp ms pr).bind (fun pr =>
          (stepAbs ms pr).bind (fun pr =>
            (stepAirDate ymd ms pr).map (fun pr =>
              applyVersion ms (applyReleaseGroup ms pr)))))

/-- The candidate list built by the rule loop, in catalog order. -/
def ruleCandidates (ymd : String → Int × Int × Int) (np : NameParser)
    (name : String) : List ParseResult :=
  np.Regexes.enum.filterMap (fun p => ruleCandidate ymd p.1 p.2 name)

/-- Selection of `matchResults[0]` after `sort.Sort(sort.Reverse(byScore))`:
an element of maximal score. Go sorting is not stable, so which maximal
element lands at index 0 is unspecified there; this embedding picks the
first maximal element, and no theorem below depends on the choice among
equal scores. -/
def pickHigher (b x : ParseResult) : ParseResult :=
  if b.Score < x.Score then x else b

/-- Winner among the candidates, by folding `pickHigher` over a
non-empty list; `none` for the empty candidate list. -/
def bestCandidate : List ParseResult → Option ParseResult
  | List.nil => none
  | List.cons c cs => some (cs.foldl pickHigher c)

/-- Error values produced by the naming engine. `noMatch input` models
the `fmt.Errorf` value returned when no rule matched `input`. -/
inductive NamingError where
  | noMatch (input : String) : NamingError
deriving DecidableEq, Repr

/-- Embedding of `parseString`: the winning candidate with no error, or
the zero `ParseResult` together with the no-match error. -/
def parseString (ymd : String → Int × Int × Int) (np : NameParser)
    (name : String) : ParseResult × Option NamingError :=
  match bestCandidate (ruleCandidates ymd np name) with
  | some best => (best, none)
  | none => (emptyParseResult, some (NamingError.noMatch name))

/-- Embedding of `filepath.Split`: everything up to and including the
final slash, and the remainder. -/
def filepathSplit (path : String) : String × String :=
  let rev := path.data.reverse
  let fileRev := rev.takeWhile (fun c => c ≠ Char.ofNat 47)
  (⟨(rev.drop fileRev.length).reverse⟩, ⟨fileRev.reverse⟩)

/-- Embedding of `filepath.Ext`: the suffix of the final slash-separated
element starting at its final period, empty when that element holds no
period. -/
def filepathExt (fname : String) : String :=
  let rev := fname.data.reverse
  let tailRev := rev.takeWhile (fun c => c ≠ Char.ofNat 47 ∧ c ≠ Char.ofNat 46)
  match rev.drop tailRev.length with
  | List.cons c _ =>
      if c == Char.ofNat 46 then ⟨(c :: tailRev).reverse⟩ else ""
  | List.nil => ""

/-- Embedding of `stripExtension`. -/
def stripExtension (fname : String) : String :=
  ⟨fname.data.take (fname.data.length - (filepathExt fname).data.length)⟩

/-- Embedding of `filepath.Base`: the empty path maps to a period,
trailing slashes are removed, the last element is kept, and a path of
only slashes maps to a single slash. -/
def filepathBase (path : String) : String :=
  if path == "" then "."
  else
    let rev := path.data.reverse
    let rev := rev.dropWhile (fun c => c == Char.ofNat 47)
    let baseRev := rev.takeWhile (fun c => c ≠ Char.ofNat 47)
    if baseRev.isEmpty then ⟨[Char.ofNat 47]⟩ else ⟨baseRev.reverse⟩

/-- The eight field names `ParseFile` passes to `combineResults`. The Go
function addresses any struct field by its reflected name and returns an
error for an unknown name; only these eight names are ever requested. -/
inductive MField where
  | airDate
  | absoluteEpisodeNumbers
  | seasonNumber
  | episodeNumbers
  | seriesName
  | extraInfo
  | releaseGroup
  | version
deriving DecidableEq, Repr

/-- Embedding of `isEmptyValue` applied to a merged field. The Go
function (copied from encoding/json) switches on the reflected kind and
has no `reflect.Struct` case, so the `time.Time` air date is never
empty; strings and slices are empty at length zero, integers at 0. -/
def fieldIsEmpty (r : ParseResult) : MField → Bool
  | MField.airDate => false
  | MField.absoluteEpisodeNumbers => r.AbsoluteEpisodeNumbers.isEmpty
  | MField.seasonNumber => r.SeasonNumber == 0
  | MField.episodeNumbers => r.EpisodeNumbers.isEmpty
  | MField.seriesName => r.SeriesName == ""
  | MField.extraInfo => r.ExtraInfo == ""
  | MField.releaseGroup => r.ReleaseGroup == ""
  | MField.version => r.Version == ""

/-- Copy one merged field from `src` into `dst`, mirroring `r.Set(...)`
on the reflected field. -/
def setFieldFrom (dst src : ParseResult) : MField → ParseResult
  | MField.airDate => { dst with AirDate := src.AirDate }
  | MField.absoluteEpisodeNumbers =>
      { dst with AbsoluteEpisodeNumbers := src.AbsoluteEpisodeNumbers }
  | MField.seasonNumber => { dst with SeasonNumber := src.SeasonNumber }
  | MField.episodeNumbers => { dst with EpisodeNumbers := src.EpisodeNumbers }
  | MField.seriesName => { dst with SeriesName := src.SeriesName }
  | MField.extraInfo => { dst with ExtraInfo := src.ExtraInfo }
  | MField.releaseGroup => { dst with ReleaseGroup := src.ReleaseGroup }
  | MField.version => { dst with Version := src.Version }

/-- Embedding of `combineResults`: when the preferred (second argument)
result has a non-empty field it is copied into the final result,
otherwise the fallback (third argument) field is copied -- even when the
fallback field is itself empty. -/
def combineResults (finalRes fileRes dirRes : ParseResult)
    (field : MField) : ParseResult :=
  if fieldIsEmpty fileRes field then setFieldFrom finalRes dirRes field
  else setFieldFrom finalRes fileRes field

/-- The eight-call merge sequence of `ParseFile`, in source order: the
path-shaped fields prefer the file-name result, the descriptive fields
prefer the directory result. -/
def combineAll (finalRes fileNameResult dirNameResult : ParseResult) :
    ParseResult :=
  let r := combineResults finalRes fileNameResult dirNameResult MField.airDate
  let r := combineResults r fileNameResult dirNameResult MField.absoluteEpisodeNumbers
  let r := combineResults r fileNameResult dirNameResult MField.seasonNumber
  let r := combineResults r fileNameResult dirNameResult MField.episodeNumbers
  let r := combineResults r dirNameResult fileNameResult MField.seriesName
  let r := combineResults r dirNameResult fileNameResult MField.extraInfo
  let r := combineResults r dirNameResult fileNameResult MField.releaseGroup
  let r := combineResults r dirNameResult fileNameResult MField.version
  r

/-- Embedding of `ParseFile`: split the path, strip the extension, parse
the three string forms (each error discarded, leaving the zero result
for that slot), merge, and attach the quality from the external
collaborator `qf`. -/
def ParseFile (ymd : String → Int × Int × Int) (qf : String → Quality)
    (np : NameParser) (name : String) : ParseResult :=
  let split := filepathSplit name
  let fileName := stripExtension split.2
  let dirNameBase := filepathBase split.1
  let fileNameResult := (parseString ymd np fileName).1
  let dirNameResult := (parseString ymd np dirNameBase).1
  let finalRes := (parseString ymd np name).1
  let q := qf name
  let finalRes := combineAll finalRes fileNameResult dirNameResult
  { finalRes with Quality := q }

/-- Single-pass non-overlapping replacement of a dash-space pair by a
period, mirroring `strings.Replace(name, "- ", ".", -1)`. -/
def replaceDashSpace : List Char → List Char
  | List.cons c₁ (List.cons c₂ rest) =>
      if c₁ == Char.ofNat 45 ∧ c₂ == Char.ofNat 32 then
        Char.ofNat 46 :: replaceDashSpace rest
      else c₁ :: replaceDashSpace (c₂ :: rest)
  | l => l

/-- Replacement of every ampersand by the three letters a n d, mirroring
`strings.Replace(name, "&", "and", -1)`. -/
def replaceAmp : List Char → List Char
  | List.cons c rest =>
      if c == Char.ofNat 38 then
        Char.ofNat 97 :: Char.ofNat 110 :: Char.ofNat 100 :: replaceAmp rest
      else c :: replaceAmp rest
  | List.nil => []

/-- Collapse of every run of periods to one period, mirroring the regex
replacement whose result the source computes and then discards. -/
def collapseDots : List Char → List Char
  | List.cons c₁ (List.cons c₂ rest) =>
      if c₁ == Char.ofNat 46 ∧ c₂ == Char.ofNat 46 then
        collapseDots (c₁ :: rest)
      else c₁ :: collapseDots (c₂ :: rest)
  | l => l

/-- Embedding of `SanitizeSceneName`. The source deletes the punctuation
set, turns dash-space and space joins and slashes into periods, expands
ampersands, then calls `dotreplace.ReplaceAllString(name, ".")` WITHOUT
using its return value (mirrored here by a discarded `let`), and finally
trims one trailing period with `strings.TrimSuffix`. -/
def SanitizeSceneName (name : String) : String :=
  let bad : List Char :=
    [Char.ofNat 44, Char.ofNat 58, Char.ofNat 40, Char.ofNat 41,
     Char.ofNat 33, Char.ofNat 63, Char.ofNat 39]
  let l := bad.foldl (fun acc c => acc.filter (fun x => x ≠ c)) name.data
  let l := replaceDashSpace l
  let l := l.map (fun c => if c == Char.ofNat 32 then Char.ofNat 46 else c)
  let l := replaceAmp l
  let l := l.map (fun c => if c == Char.ofNat 47 then Char.ofNat 46 else c)
  let _ := collapseDots l
  let l := if l.getLast? == some (Char.ofNat 46) then l.dropLast else l
  ⟨l⟩

/-- Bonus points of a captures map: the five scored captures of the rule
loop. Episode-number and absolute-episode captures award none. -/
def bonusScore (ms : Captures) : Int :=
  (if (lookupMatch ms "series_name").isSome then 1 else 0)
  + (if (lookupMatch ms "series_num").isSome then 1 else 0)
  + (if (lookupMatch ms "season_num").isSome then 1 else 0)
  + (if (lookupMatch ms "air_date").isSome then 1 else 0)
  + (if (lookupMatch ms "release_group").isSome then 1 else 0)

/-- Trivial stand-in for `brimtime.TranslateYMD`, used by concrete test
fixtures whose rules capture no air date. -/
def ymd0 : String → Int × Int × Int := fun _ => ((0 : Int), (0 : Int), (0 : Int))

/-- Named-group access built from an association list, for concrete
fixture rules. -/
def namedOf (l : List (String × String)) : NamedGroups :=
  fun g => (l.find? (fun p => p.1 == g)).map (fun p => p.2)

/-- Fixture rule: on input t it captures primary episode 05 and the
non-numeric secondary episode 6a. -/
def rC2 : NameRegex :=
  { Name := "ruleC2"
    Regex := fun s =>
      if s == "t" then
        some (namedOf [("ep_num", "05"), ("extra_ep_num", "6a")])
      else none }

/-- Fixture rule: on input t it captures a series name and a version
group, the latter outside `knownMatches`. -/
def rC4 : NameRegex :=
  { Name := "ruleC4"
    Regex := fun s =>
      if s == "t" then
        some (namedOf [("series_name", "A"), ("version", "v2")])
      else none }

/-- Fixture rule: on input t it captures a series name and a release
group, worth two bonus points. -/
def rC6 : NameRegex :=
  { Name := "ruleC6"
    Regex := fun s =>
      if s == "t" then
        some (namedOf [("series_name", "A"), ("release_group", "G")])
      else none }

/-- Fixture rule for the priority test: series name A on input t. -/
def rC7a : NameRegex :=
  { Name := "ruleA"
    Regex := fun s =>
      if s == "t" then some (namedOf [("series_name", "A")]) else none }

/-- Fixture rule for the priority test: series name B on input t. -/
def rC7b : NameRegex :=
  { Name := "ruleB"
    Regex := fun s =>
      if s == "t" then some (namedOf [("series_name", "B")]) else none }

/-- Candidate the fixture rule `rC7a` produces at catalog index 0. -/
def prC7a : ParseResult :=
  { emptyParseResult with
      OriginalName := "t", SeriesName := "A", Score := 1, RegexUsed := "ruleA" }

/-- Candidate the fixture rule `rC7b` produces at catalog index 1. -/
def prC7b : ParseResult :=
  { emptyParseResult with
      OriginalName := "t", SeriesName := "B", Score := 0, RegexUsed := "ruleB" }

/-- Fixture rule: on input t it captures the all-zero season number 00. -/
def rC10 : NameRegex :=
  { Name := "ruleC10"
    Regex := fun s =>
      if s == "t" then some (namedOf [("season_num", "00")]) else none }

/-- Candidate the fixture rule `rC2` produces at catalog index 0: the
episode list stays empty because the secondary capture fails to
convert. -/
def prC2 : ParseResult :=
  { emptyParseResult with OriginalName := "t", RegexUsed := "ruleC2" }

/-- Candidate the fixture rule `rC6` produces at catalog index 0. -/
def prC6 : ParseResult :=
  { emptyParseResult with
      OriginalName := "t", SeriesName := "A", ReleaseGroup := "G",
      Score := 2, RegexUsed := "ruleC6" }

end Naming

namespace Naming

lemma fieldIsEmpty_setFieldFrom (a b : ParseResult) (fld : MField) :
    fieldIsEmpty (setFieldFrom a b fld) fld = fieldIsEmpty b fld := by
  cases fld <;> rfl

lemma combine_airDate (f a b : ParseResult) :
    combineResults f a b MField.airDate = { f with AirDate := a.AirDate } := rfl

lemma combine_abs (f a b : ParseResult) :
    combineResults f a b MField.absoluteEpisodeNumbers =
      { f with AbsoluteEpisodeNumbers :=
          if a.AbsoluteEpisodeNumbers.isEmpty then b.AbsoluteEpisodeNumbers
          else a.AbsoluteEpisodeNumbers } := by
  by_cases h : a.AbsoluteEpisodeNumbers.isEmpty <;>
    simp [combineResults, fieldIsEmpty, setFieldFrom, h]

lemma combine_season (f a b : ParseResult) :
    combineResults f a b MField.seasonNumber =
      { f with SeasonNumber :=
          if a.SeasonNumber == 0 then b.SeasonNumber else a.SeasonNumber } := by
  by_cases h : a.SeasonNumber = 0 <;>
    simp [combineResults, fieldIsEmpty, setFieldFrom, h]

lemma combine_ep (f a b : ParseResult) :
    combineResults f a b MField.episodeNumbers =
      { f with EpisodeNumbers :=
          if a.EpisodeNumbers.isEmpty then b.EpisodeNumbers
          else a.EpisodeNumbers } := by
  by_cases h : a.EpisodeNumbers.isEmpty <;>
    simp [combineResults, fieldIsEmpty, setFieldFrom, h]

lemma combine_seriesName (f a b : ParseResult) :
    combineResults f a b MField.seriesName =
      { f with SeriesName :=
          if a.SeriesName == "" then b.SeriesName else a.SeriesName } := by
  by_cases h : a.SeriesName = "" <;>
    simp [combineResults, fieldIsEmpty, setFieldFrom, h]

lemma combine_extraInfo (f a b : ParseResult) :
    combineResults f a b MField.extraInfo =
      { f with ExtraInfo :=
          if a.ExtraInfo == "" then b.ExtraInfo else a.ExtraInfo } := by
  by_cases h : a.ExtraInfo = "" <;>
    simp [combineResults, fieldIsEmpty, setFieldFrom, h]

lemma combine_releaseGroup (f a b : ParseResult) :
    combineResults f a b MField.releaseGroup =
      { f with ReleaseGroup :=
          if a.ReleaseGroup == "" then b.ReleaseGroup else a.ReleaseGroup } := by
  by_cases h : a.ReleaseGroup = "" <;>
    simp [combineResults, fieldIsEmpty, setFieldFrom, h]

lemma combine_version (f a b : ParseResult) :
    combineResults f a b MField.version =
      { f with Version :=
          if a.Version == "" then b.Version else a.Version } := by
  by_cases h : a.Version = "" <;>
    simp [combineResults, fieldIsEmpty, setFieldFrom, h]

lemma combineAll_eq (f a b : ParseResult) :
    combineAll f a b =
      { f with
          AirDate := a.AirDate
          AbsoluteEpisodeNumbers :=
            if a.AbsoluteEpisodeNumbers.isEmpty then b.AbsoluteEpisodeNumbers
            else a.AbsoluteEpisodeNumbers
          SeasonNumber :=
            if a.SeasonNumber == 0 then b.SeasonNumber else a.SeasonNumber
          EpisodeNumbers :=
            if a.EpisodeNumbers.isEmpty then b.EpisodeNumbers
            else a.EpisodeNumbers
          SeriesName :=
            if b.SeriesName == "" then a.SeriesName else b.SeriesName
          ExtraInfo := if b.ExtraInfo == "" then a.ExtraInfo else b.ExtraInfo
          ReleaseGroup :=
            if b.ReleaseGroup == "" then a.ReleaseGroup else b.ReleaseGroup
          Version := if b.Version == "" then a.Version else b.Version } := by
  simp only [combineAll, combine_airDate, combine_abs, combine_season, combine_ep,
    combine_seriesName, combine_extraInfo, combine_releaseGroup, combine_version]

end Naming

namespace Naming

lemma bestCandidate_eq_none_iff (l : List ParseResult) :
    bestCandidate l = none ↔ l = [] := by
  cases l <;> simp [bestCandidate]

lemma parseString_of_error (ymd : String → Int × Int × Int) (np : NameParser)
    (name : String) (h : (parseString ymd np name).2.isSome = true) :
    parseString ymd np name = (emptyParseResult, some (NamingError.noMatch name))
      ∧ ruleCandidates ymd np name = [] := by
  unfold parseString at h ⊢
  cases hb : bestCandidate (ruleCandidates ymd np name) with
  | some best => rw [hb] at h; simp at h
  | none => exact ⟨rfl, (bestCandidate_eq_none_iff _).mp hb⟩

lemma applySeriesName_spec (ms : Captures) (pr : ParseResult) :
    (applySeriesName ms pr).Score =
        pr.Score + (if (lookupMatch ms "series_name").isSome then 1 else 0)
      ∧ (applySeriesName ms pr).EpisodeNumbers = pr.EpisodeNumbers
      ∧ (applySeriesName ms pr).RegexUsed = pr.RegexUsed := by
  unfold applySeriesName
  cases h : lookupMatch ms "series_name" <;> simp [h]

lemma applySeriesNum_spec (ms : Captures) (pr : ParseResult) :
    (applySeriesNum ms pr).Score =
        pr.Score + (if (lookupMatch ms "series_num").isSome then 1 else 0)
      ∧ (applySeriesNum ms pr).EpisodeNumbers = pr.EpisodeNumbers
      ∧ (applySeriesNum ms pr).RegexUsed = pr.RegexUsed := by
  unfold applySeriesNum
  cases h : lookupMatch ms "series_num" <;> simp [h]

lemma applyReleaseGroup_spec (ms : Captures) (pr : ParseResult) :
    (applyReleaseGroup ms pr).Score =
        pr.Score + (if (lookupMatch ms "release_group").isSome then 1 else 0)
      ∧ (applyReleaseGroup ms pr).EpisodeNumbers = pr.EpisodeNumbers
      ∧ (applyReleaseGroup ms pr).RegexUsed = pr.RegexUsed := by
  unfold applyReleaseGroup
  cases h : lookupMatch ms "release_group" <;> simp [h]

lemma applyVersion_spec (ms : Captures) (pr : ParseResult) :
    (applyVersion ms pr).Score = pr.Score
      ∧ (applyVersion ms pr).EpisodeNumbers = pr.EpisodeNumbers
      ∧ (applyVersion ms pr).RegexUsed = pr.RegexUsed := by
  unfold applyVersion
  cases h : lookupMatch ms "version" <;> simp [h]

lemma stepSeason_spec (ms : Captures) (pr pr₂ : ParseResult)
    (h : stepSeason ms pr = some pr₂) :
    pr₂.Score = pr.Score + (if (lookupMatch ms "season_num").isSome then 1 else 0)
      ∧ pr₂.EpisodeNumbers = pr.EpisodeNumbers
      ∧ pr₂.RegexUsed = pr.RegexUsed := by
  unfold stepSeason at h
  split at h
  · rename_i hl
    simp only [Option.some.injEq] at h
    subst h
    simp [hl]
  · rename_i m hl
    split at h
    · simp at h
    · rename_i sn hp
      simp only [Option.some.injEq] at h
      subst h
      simp [hl]

lemma stepEp_spec (ms : Captures) (pr pr₂ : ParseResult)
    (h : stepEp ms pr = some pr₂) :
    pr₂.Score = pr.Score ∧ pr₂.RegexUsed = pr.RegexUsed := by
  unfold stepEp at h
  split at h
  · simp only [Option.some.injEq] at h
    subst h
    exact ⟨rfl, rfl⟩
  · rename_i m hl
    split at h
    · simp at h
    · rename_i en hp
      split at h
      · rename_i x he
        split at h
        · simp only [Option.some.injEq] at h
          subst h
          exact ⟨rfl, rfl⟩
        · rename_i xv hx
          simp only [Option.some.injEq] at h
          subst h
          exact ⟨rfl, rfl⟩
      · rename_i he
        simp only [Option.some.injEq] at h
        subst h
        exact ⟨rfl, rfl⟩

lemma stepAbs_spec (ms : Captures) (pr pr₂ : ParseResult)
    (h : stepAbs ms pr = some pr₂) :
    pr₂.Score = pr.Score
      ∧ pr₂.EpisodeNumbers = pr.EpisodeNumbers
      ∧ pr₂.RegexUsed = pr.RegexUsed := by
  unfold stepAbs at h
  split at h
  · simp only [Option.some.injEq] at h
    subst h
    exact ⟨rfl, rfl, rfl⟩
  · rename_i m hl
    split at h
    · simp at h
    · rename_i en hp
      simp only [Option.some.injEq] at h
      subst h
      exact ⟨rfl, rfl, rfl⟩

lemma stepAirDate_spec (ymd : String → Int × Int × Int) (ms : Captures)
    (pr pr₂ : ParseResult) (h : stepAirDate ymd ms pr = some pr₂) :
    pr₂.Score = pr.Score + (if (lookupMatch ms "air_date").isSome then 1 else 0)
      ∧ pr₂.EpisodeNumbers = pr.EpisodeNumbers
      ∧ pr₂.RegexUsed = pr.RegexUsed := by
  unfold stepAirDate at h
  split at h
  · rename_i hl
    simp only [Option.some.injEq] at h
    subst h
    simp [hl]
  · rename_i m hl
    split at h
    · simp only [Option.some.injEq] at h
      subst h
      simp [hl]
    · simp at h

lemma foldl_pickHigher_ge_init (l : List ParseResult) :
    ∀ b : ParseResult, b.Score ≤ (l.foldl pickHigher b).Score := by
  induction l with
  | nil => intro b; simp
  | cons x xs ih =>
      intro b
      rw [List.foldl_cons]
      have h1 : b.Score ≤ (pickHigher b x).Score := by
        unfold pickHigher; split <;> omega
      exact le_trans h1 (ih (pickHigher b x))

lemma foldl_pickHigher_ge_mem (l : List ParseResult) :
    ∀ (b c : ParseResult), c ∈ l → c.Score ≤ (l.foldl pickHigher b).Score := by
  induction l with
  | nil => simp
  | cons x xs ih =>
      intro b c hc
      rw [List.foldl_cons]
      rcases List.mem_cons.mp hc with h | h
      · subst h
        have h1 : c.Score ≤ (pickHigher b c).Score := by
          unfold pickHigher; split <;> omega
        exact le_trans h1 (foldl_pickHigher_ge_init xs _)
      · exact ih _ c h

lemma parseInt64_empty : parseInt64 "" = none := rfl

lemma trimLeftZeros_all_zero (s : String)
    (h : s.data.all (fun c => c == Char.ofNat 48) = true) :
    trimLeftZeros s = "" := by
  unfold trimLeftZeros
  suffices hh : ∀ l : List Char, l.all (fun c => c == Char.ofNat 48) = true →
      l.dropWhile (fun c => c == Char.ofNat 48) = [] by
    rw [hh s.data h]
  intro l
  induction l with
  | nil => intro _; rfl
  | cons c cs ih =>
      intro hl
      rw [List.all_cons, Bool.and_eq_true] at hl
      simp only [List.dropWhile_cons, hl.1, if_true]
      exact ih hl.2

end Naming

namespace Naming

lemma seedResult_fields (i : Nat) (r : NameRegex) (name : String) :
    (seedResult i r name).Score = 0 - (i : Int)
      ∧ (seedResult i r name).EpisodeNumbers = []
      ∧ (seedResult i r name).RegexUsed = r.Name := ⟨rfl, rfl, rfl⟩

lemma ruleCandidate_spec (ymd : String → Int × Int × Int) (i : Nat)
    (r : NameRegex) (name : String) (ms : Captures) (res : ParseResult)
    (hm : regexNamedMatch r.Regex name = some ms)
    (h : ruleCandidate ymd i r name = some res) :
    res.Score = 0 - (i : Int) + bonusScore ms ∧ res.RegexUsed = r.Name := by
  unfold ruleCandidate at h
  split at h
  · simp at h
  · rename_i ms2 hm2
    rw [hm] at hm2
    injection hm2 with e
    subst e
    obtain ⟨a, ha, h⟩ := Option.bind_eq_some.mp h
    obtain ⟨b, hb, h⟩ := Option.bind_eq_some.mp h
    obtain ⟨c, hc, h⟩ := Option.bind_eq_some.mp h
    obtain ⟨d, hd, hres⟩ := Option.map_eq_some'.mp h
    subst hres
    have hSA := applySeriesName_spec ms (seedResult i r name)
    have hSN := applySeriesNum_spec ms (applySeriesName ms (seedResult i r name))
    have hS := stepSeason_spec ms _ a ha
    have hE := stepEp_spec ms a b hb
    have hAb := stepAbs_spec ms b c hc
    have hAd := stepAirDate_spec ymd ms c d hd
    have hRG := applyReleaseGroup_spec ms d
    have hV := applyVersion_spec ms (applyReleaseGroup ms d)
    have hseed := seedResult_fields i r name
    constructor
    · have e1 := hSA.1
      have e2 := hSN.1
      have e3 := hS.1
      have e4 := hE.1
      have e5 := hAb.1
      have e6 := hAd.1
      have e7 := hRG.1
      have e8 := hV.1
      have e0 := hseed.1
      unfold bonusScore
      omega
    · rw [hV.2.2, hRG.2.2, hAd.2.2, hAb.2.2, hE.2, hS.2.2, hSN.2.2, hSA.2.2]
      exact hseed.2.2

lemma stepEp_extra_fail (ms : Captures) (m x : String) (pr : ParseResult)
    (hep : lookupMatch ms "ep_num" = some m)
    (hen : (parseInt64 (trimLeftZeros m)).isSome = true)
    (hx : lookupMatch ms "extra_ep_num" = some x)
    (hxf : parseInt64 x = none) :
    stepEp ms pr = some pr := by
  obtain ⟨en, hen2⟩ := Option.isSome_iff_exists.mp hen
  unfold stepEp
  simp [hep, hen2, hx, hxf]

lemma ruleCandidate_episodes_of_extraEp_fail (ymd : String → Int × Int × Int)
    (i : Nat) (r : NameRegex) (name : String) (ms : Captures) (m x : String)
    (res : ParseResult)
    (hm : regexNamedMatch r.Regex name = some ms)
    (hep : lookupMatch ms "ep_num" = some m)
    (hen : (parseInt64 (trimLeftZeros m)).isSome = true)
    (hx : lookupMatch ms "extra_ep_num" = some x)
    (hxf : parseInt64 x = none)
    (h : ruleCandidate ymd i r name = some res) :
    res.EpisodeNumbers = [] := by
  unfold ruleCandidate at h
  split at h
  · simp at h
  · rename_i ms2 hm2
    rw [hm] at hm2
    injection hm2 with e
    subst e
    obtain ⟨a, ha, h⟩ := Option.bind_eq_some.mp h
    obtain ⟨b, hb, h⟩ := Option.bind_eq_some.mp h
    obtain ⟨c, hc, h⟩ := Option.bind_eq_some.mp h
    obtain ⟨d, hd, hres⟩ := Option.map_eq_some'.mp h
    subst hres
    have hab : a = b := by
      rw [stepEp_extra_fail ms m x a hep hen hx hxf] at hb
      injection hb
    subst hab
    have hSA := applySeriesName_spec ms (seedResult i r name)
    have hSN := applySeriesNum_spec ms (applySeriesName ms (seedResult i r name))
    have hS := stepSeason_spec ms _ a ha
    have hAb := stepAbs_spec ms a c hc
    have hAd := stepAirDate_spec ymd ms c d hd
    have hRG := applyReleaseGroup_spec ms d
    have hV := applyVersion_spec ms (applyReleaseGroup ms d)
    have hseed := seedResult_fields i r name
    rw [hV.2.1, hRG.2.1, hAd.2.1, hAb.2.1, hS.2.1, hSN.2.1, hSA.2.1]
    exact hseed.2.1

lemma ruleCandidate_skip_of_all_zero (ymd : String → Int × Int × Int)
    (i : Nat) (r : NameRegex) (name : String) (ms : Captures) (s : String)
    (hm : regexNamedMatch r.Regex name = some ms)
    (hcap : lookupMatch ms "season_num" = some s
      ∨ lookupMatch ms "ep_num" = some s)
    (hz : s.data.all (fun c => c == Char.ofNat 48) = true) :
    ruleCandidate ymd i r name = none := by
  have hpz : parseInt64 (trimLeftZeros s) = none := by
    rw [trimLeftZeros_all_zero s hz]
    exact parseInt64_empty
  unfold ruleCandidate
  rw [hm]
  rcases hcap with hs | he
  · have hstep : ∀ pr, stepSeason ms pr = none := by
      intro pr
      unfold stepSeason
      simp [hs, hpz]
    simp [hstep]
  · have hstep : ∀ pr, stepEp ms pr = none := by
      intro pr
      unfold stepEp
      simp [he, hpz]
    cases hss : stepSeason ms (applySeriesNum ms (applySeriesName ms (seedResult i r name))) with
    | none => simp [hss]
    | some a => simp [hss, hstep]

end Naming

namespace Naming

lemma parseString_of_candidates_cons (ymd : String → Int × Int × Int)
    (np : NameParser) (name : String) (c0 : ParseResult) (cs : List ParseResult)
    (hl : ruleCandidates ymd np name = c0 :: cs) :
    parseString ymd np name = (cs.foldl pickHigher c0, none) := by
  unfold parseString
  rw [hl]
  rfl

lemma parseString_score_max (ymd : String → Int × Int × Int) (np : NameParser)
    (name : String) (c : ParseResult) (hc : c ∈ ruleCandidates ymd np name) :
    c.Score ≤ (parseString ymd np name).1.Score := by
  cases hl : ruleCandidates ymd np name with
  | nil => rw [hl] at hc; simp at hc
  | cons c0 cs =>
      rw [parseString_of_candidates_cons ymd np name c0 cs hl]
      rw [hl] at hc
      rcases List.mem_cons.mp hc with h | h
      · subst h
        exact foldl_pickHigher_ge_init cs c
      · exact foldl_pickHigher_ge_mem cs c0 c h

end Naming

namespace Naming

/-- C1 counterexample: with a seeded full-path result whose series name
is X and empty file-name and directory results, the merge clears the
series name -- the populated seed value does not survive, contrary to
the claim that emptiness never overwrites a populated field. -/
theorem seriesName_seed_overwritten_cex :
    fieldIsEmpty emptyParseResult MField.seriesName = true
      ∧ fieldIsEmpty { emptyParseResult with SeriesName := "X" }
          MField.seriesName = false
      ∧ (combineAll { emptyParseResult with SeriesName := "X" }
          emptyParseResult emptyParseResult).SeriesName = "" :=
  ⟨by decide, by decide, by decide⟩

/-- C1 amended: when both the preferred and the fallback source fields
are empty, the merged field of `combineAll` ends up empty as well -- the
seeded full-path value is overwritten by the fallback value rather than
kept. -/
theorem merge_empty_sources_yield_empty (final file dir : ParseResult)
    (fld : MField) (h1 : fieldIsEmpty file fld = true)
    (h2 : fieldIsEmpty dir fld = true) :
    fieldIsEmpty (combineAll final file dir) fld = true := by
  cases fld <;> simp_all [combineAll_eq, fieldIsEmpty]

/-- C1 witness: the amended statement at the concrete counterexample
input. -/
theorem merge_empty_sources_yield_empty_witness :
    fieldIsEmpty (combineAll { emptyParseResult with SeriesName := "X" }
        emptyParseResult emptyParseResult) MField.seriesName = true :=
  merge_empty_sources_yield_empty { emptyParseResult with SeriesName := "X" }
    emptyParseResult emptyParseResult MField.seriesName (by decide) (by decide)

/-- C2 counterexample: the fixture rule captures primary episode 05 and
non-numeric secondary 6a; the produced candidate exists (rule not
skipped) but its episode sequence is empty, not the claimed one-element
sequence holding 5. -/
theorem extraEp_failure_drops_primary_cex :
    (ruleCandidate ymd0 0 rC2 "t").isSome = true
      ∧ (ruleCandidate ymd0 0 rC2 "t").map ParseResult.EpisodeNumbers = some []
      ∧ (ruleCandidate ymd0 0 rC2 "t").map ParseResult.EpisodeNumbers
          ≠ some [5] :=
  ⟨by decide, by decide, by decide⟩

/-- C2 amended: when the primary episode capture converts and the
secondary capture fails conversion, the episode step is non-fatal and
leaves the result untouched, so any candidate the rule produces carries
an empty episode sequence -- the primary value is discarded along with
the failed secondary instead of degrading to a one-element sequence. -/
theorem extraEp_failure_keeps_rule (ymd : String → Int × Int × Int) (i : Nat)
    (r : NameRegex) (name : String) (ms : Captures) (m x : String)
    (hm : regexNamedMatch r.Regex name = some ms)
    (hep : lookupMatch ms "ep_num" = some m)
    (hen : (parseInt64 (trimLeftZeros m)).isSome = true)
    (hx : lookupMatch ms "extra_ep_num" = some x)
    (hxf : parseInt64 x = none) :
    (∀ pr, stepEp ms pr = some pr)
      ∧ ∀ res, ruleCandidate ymd i r name = some res →
          res.EpisodeNumbers = [] :=
  ⟨fun pr => stepEp_extra_fail ms m x pr hep hen hx hxf,
   fun res h =>
     ruleCandidate_episodes_of_extraEp_fail ymd i r name ms m x res
       hm hep hen hx hxf h⟩

/-- C2 witness: the amended statement applied at the fixture rule. -/
theorem extraEp_failure_keeps_rule_witness : prC2.EpisodeNumbers = [] :=
  (extraEp_failure_keeps_rule ymd0 0 rC2 "t"
      [("ep_num", "05"), ("extra_ep_num", "6a")] "05" "6a"
      (by decide) (by decide) (by decide) (by decide) (by decide)).2
    prC2 (by decide)

/-- C3: the source computes the period-collapsing replacement but
discards its result and trims only one trailing period, so the output of
`SanitizeSceneName` can contain consecutive periods and can end with a
period: the input a - b yields a..b, and the input a.. yields a. -/
theorem sanitize_scene_dots_not_collapsed :
    SanitizeSceneName "a - b" = "a..b" ∧ SanitizeSceneName "a.." = "a." :=
  ⟨by decide, by decide⟩

/-- C4: the name version is absent from `knownMatches`, so even when a
rule captures a non-empty version group (here v2), the candidate keeps
an empty version field -- the version handler in the rule loop is
unreachable. -/
theorem version_capture_never_stored :
    "version" ∉ knownMatches
      ∧ (ruleCandidate ymd0 0 rC4 "t").map ParseResult.Version = some "" :=
  ⟨by decide, by decide⟩

/-- C5 counterexample: with an unset file-name air date and a populated
directory air date, the merged air date is the unset file-name value,
not the directory value the claim predicts -- a date field is never
considered empty by the reflection emptiness test. -/
theorem airDate_merge_ignores_dir_cex :
    (combineAll emptyParseResult emptyParseResult
        { emptyParseResult with AirDate := ⟨2020, 5, 1⟩ }).AirDate = zeroGoTime
      ∧ ({ emptyParseResult with AirDate := (⟨2020, 5, 1⟩ : GoTime) }
          : ParseResult).AirDate ≠ zeroGoTime :=
  ⟨by decide, by decide⟩

/-- C5 amended: for absolute episode numbers, season number and episode
numbers the merged value is the file-name value when non-empty and
otherwise the directory value; for series name, extra info, release
group and version it is the directory value when non-empty and otherwise
the file-name value; the air date is always the file-name value because
a date is never considered empty. -/
theorem combineAll_field_values (final file dir : ParseResult) :
    (combineAll final file dir).AirDate = file.AirDate
      ∧ (combineAll final file dir).AbsoluteEpisodeNumbers =
          (if file.AbsoluteEpisodeNumbers.isEmpty then
            dir.AbsoluteEpisodeNumbers
           else file.AbsoluteEpisodeNumbers)
      ∧ (combineAll final file dir).SeasonNumber =
          (if file.SeasonNumber == 0 then dir.SeasonNumber
           else file.SeasonNumber)
      ∧ (combineAll final file dir).EpisodeNumbers =
          (if file.EpisodeNumbers.isEmpty then dir.EpisodeNumbers
           else file.EpisodeNumbers)
      ∧ (combineAll final file dir).SeriesName =
          (if dir.SeriesName == "" then file.SeriesName else dir.SeriesName)
      ∧ (combineAll final file dir).ExtraInfo =
          (if dir.ExtraInfo == "" then file.ExtraInfo else dir.ExtraInfo)
      ∧ (combineAll final file dir).ReleaseGroup =
          (if dir.ReleaseGroup == "" then file.ReleaseGroup
           else dir.ReleaseGroup)
      ∧ (combineAll final file dir).Version =
          (if dir.Version == "" then file.Version else dir.Version) := by
  rw [combineAll_eq]
  exact ⟨rfl, rfl, rfl, rfl, rfl, rfl, rfl, rfl⟩

/-- C6: every candidate produced by the rule at catalog index `i` scores
the baseline `0 - i` plus one point for each of exactly the five scored
captures (series name, alternate series number, season number, air date,
release group), as summed by `bonusScore`; episode and absolute-episode
captures award nothing. -/
theorem candidate_score_formula (ymd : String → Int × Int × Int) (i : Nat)
    (r : NameRegex) (name : String) (ms : Captures) (res : ParseResult)
    (hm : regexNamedMatch r.Regex name = some ms)
    (h : ruleCandidate ymd i r name = some res) :
    res.Score = 0 - (i : Int) + bonusScore ms :=
  (ruleCandidate_spec ymd i r name ms res hm h).1

/-- C6 witness: the score formula at the fixture rule with two scored
captures. -/
theorem candidate_score_formula_witness :
    prC6.Score = 0 - ((0 : Nat) : Int)
      + bonusScore [("series_name", "A"), ("release_group", "G")] :=
  candidate_score_formula ymd0 0 rC6 "t"
    [("series_name", "A"), ("release_group", "G")] prC6 (by decide) (by decide)

/-- C7: the winner of `parseString` carries a maximal score among the
candidates, and for a two-rule catalog in which both rules produce
candidates with equal bonus points, the earlier rule wins and its name
is recorded in the returned result. -/
theorem best_candidate_maximal_and_priority (ymd : String → Int × Int × Int)
    (np : NameParser) (name : String) :
    (∀ c ∈ ruleCandidates ymd np name,
        c.Score ≤ (parseString ymd np name).1.Score)
      ∧ (∀ r₁ r₂ p₁ p₂ ms₁ ms₂,
          np.Regexes = [r₁, r₂] →
          regexNamedMatch r₁.Regex name = some ms₁ →
          regexNamedMatch r₂.Regex name = some ms₂ →
          ruleCandidate ymd 0 r₁ name = some p₁ →
          ruleCandidate ymd 1 r₂ name = some p₂ →
          bonusScore ms₁ = bonusScore ms₂ →
          parseString ymd np name = (p₁, none)
            ∧ p₁.RegexUsed = r₁.Name) := by
  constructor
  · intro c hc
    exact parseString_score_max ymd np name c hc
  · intro r₁ r₂ p₁ p₂ ms₁ ms₂ hnp hm₁ hm₂ h₁ h₂ hbonus
    have hcand : ruleCandidates ymd np name = [p₁, p₂] := by
      unfold ruleCandidates
      rw [hnp]
      have he : ([r₁, r₂] : List NameRegex).enum = [(0, r₁), (1, r₂)] := rfl
      rw [he]
      simp [List.filterMap_cons, h₁, h₂]
    have hs₁ := (ruleCandidate_spec ymd 0 r₁ name ms₁ p₁ hm₁ h₁).1
    have hs₂ := (ruleCandidate_spec ymd 1 r₂ name ms₂ p₂ hm₂ h₂).1
    have hps := parseString_of_candidates_cons ymd np name p₁ [p₂] hcand
    have hfold : List.foldl pickHigher p₁ [p₂] = p₁ := by
      simp only [List.foldl_cons, List.foldl_nil, pickHigher]
      rw [if_neg (by omega)]
    rw [hfold] at hps
    exact ⟨hps, (ruleCandidate_spec ymd 0 r₁ name ms₁ p₁ hm₁ h₁).2⟩

/-- C7 witness: with the two fixture rules, both matching with one bonus
point each, the earlier rule ruleA wins. -/
theorem best_candidate_priority_witness :
    parseString ymd0 ⟨[rC7a, rC7b]⟩ "t" = (prC7a, none)
      ∧ prC7a.RegexUsed = rC7a.Name :=
  (best_candidate_maximal_and_priority ymd0 ⟨[rC7a, rC7b]⟩ "t").2
    rC7a rC7b prC7a prC7b [("series_name", "A")] [("series_name", "B")]
    rfl (by decide) (by decide) (by decide) (by decide) (by decide)

/-- C8: `parseString` reports the no-match error exactly when no rule of
the catalog produces a candidate, and in that case the caller receives
the all-zero `ParseResult` alongside the error. -/
theorem parse_string_nomatch_iff (ymd : String → Int × Int × Int)
    (np : NameParser) (name : String) :
    ((parseString ymd np name).2.isSome = true ↔
        ∀ p ∈ np.Regexes.enum, ruleCandidate ymd p.1 p.2 name = none)
      ∧ ((parseString ymd np name).2.isSome = true →
          parseString ymd np name =
            (emptyParseResult, some (NamingError.noMatch name))) := by
  have hnil : ruleCandidates ymd np name = [] ↔
      ∀ p ∈ np.Regexes.enum, ruleCandidate ymd p.1 p.2 name = none := by
    unfold ruleCandidates
    exact List.filterMap_eq_nil_iff
  refine ⟨⟨fun h => hnil.mp (parseString_of_error ymd np name h).2, fun h => ?_⟩,
    fun h => (parseString_of_error ymd np name h).1⟩
  unfold parseString
  rw [hnil.mpr h]
  rfl

/-- C8 witness: with an empty catalog the parse fails with the no-match
error and the all-zero result. -/
theorem parse_string_nomatch_iff_witness :
    parseString ymd0 ⟨[]⟩ "x" =
      (emptyParseResult, some (NamingError.noMatch "x")) :=
  (parse_string_nomatch_iff ymd0 ⟨[]⟩ "x").2 (by decide)

/-- C9: `ParseFile` is total by construction (it returns a plain
`ParseResult`); when each of the three single-string parses fails with
no match, every field of the returned result is left at its zero value
and only the quality from the external collaborator is attached. -/
theorem parse_file_total_empty (ymd : String → Int × Int × Int)
    (qf : String → Quality) (np : NameParser) (name : String)
    (h1 : (parseString ymd np
        (stripExtension (filepathSplit name).2)).2.isSome = true)
    (h2 : (parseString ymd np
        (filepathBase (filepathSplit name).1)).2.isSome = true)
    (h3 : (parseString ymd np name).2.isSome = true) :
    ParseFile ymd qf np name = { emptyParseResult with Quality := qf name } := by
  have e1 := (parseString_of_error ymd np _ h1).1
  have e2 := (parseString_of_error ymd np _ h2).1
  have e3 := (parseString_of_error ymd np name h3).1
  simp only [ParseFile]
  rw [e1, e2, e3]
  rfl

/-- C9 witness: with the empty catalog every slot fails, and the result
is empty apart from the quality value 7. -/
theorem parse_file_total_empty_witness :
    ParseFile ymd0 (fun _ => 7) ⟨[]⟩ "a/b.mkv" =
      { emptyParseResult with Quality := 7 } :=
  parse_file_total_empty ymd0 (fun _ => 7) ⟨[]⟩ "a/b.mkv"
    (by decide) (by decide) (by decide)

/-- C10: a season-number or primary episode-number capture consisting
only of the digit 0 has every leading zero stripped, leaving the empty
string, whose integer conversion fails, so the rule produces no
candidate for that input. -/
theorem all_zero_capture_skips_rule (ymd : String → Int × Int × Int)
    (i : Nat) (r : NameRegex) (name : String) (ms : Captures) (s : String)
    (hm : regexNamedMatch r.Regex name = some ms)
    (hcap : lookupMatch ms "season_num" = some s
      ∨ lookupMatch ms "ep_num" = some s)
    (hz : s.data.all (fun c => c == Char.ofNat 48) = true) :
    ruleCandidate ymd i r name = none :=
  ruleCandidate_skip_of_all_zero ymd i r name ms s hm hcap hz

/-- C10 witness: the fixture rule capturing season 00 is skipped. -/
theorem all_zero_capture_skips_rule_witness :
    ruleCandidate ymd0 0 rC10 "t" = none :=
  all_zero_capture_skips_rule ymd0 0 rC10 "t" [("season_num", "00")] "00"
    (by decide) (Or.inl (by decide)) (by decide)

end Naming
